import Mathlib

/-!
Verification development for the `fincomepy` bond-analytics library.

The calendar model below embeds exactly the date primitives the Python source
relies on: `datetime.date` (a year/month/day triple compared lexicographically),
`timedelta` day arithmetic, `dateutil.relativedelta` month shifts (which clamp
the day-of-month to the target month's length), and `date.toordinal`-style day
differences.  On top of it we embed the static bond functions of
`fincomepy/bond.py` (`diff_month`, `last_day_in_month`, `couppcd`, `coupncd`,
`day_count`, `accrint`, `dirty_price`, the post-solver logic of `yld`), the
lazily cached risk metrics, and `BondFuture.full_future_val` from
`fincomepy/bondfuture.py`.
-/

namespace Fincomepy

/-- Gregorian leap-year test, as used by Python's `datetime` module. -/
def isLeap (y : ℤ) : Bool :=
  y % 4 == 0 && (y % 100 != 0 || y % 400 == 0)

/-- Number of days in a month of a given year (Gregorian calendar). -/
def daysInMonth (y : ℤ) (m : ℕ) : ℕ :=
  if m = 2 then (if isLeap y then 29 else 28)
  else if m = 4 ∨ m = 6 ∨ m = 9 ∨ m = 11 then 30
  else 31

/-- A calendar date, mirroring Python's `datetime.date` (year, month, day). -/
structure Date where
  year : ℤ
  month : ℕ
  day : ℕ
deriving DecidableEq

/-- Strict comparison of dates; Python compares `date` values lexicographically
by (year, month, day), which is chronological order on valid dates. -/
def Date.lt (a b : Date) : Bool :=
  decide (a.year < b.year) ||
    (decide (a.year = b.year) &&
      (decide (a.month < b.month) ||
        (decide (a.month = b.month) && decide (a.day < b.day))))

/-- Non-strict date comparison. -/
def Date.le (a b : Date) : Bool :=
  Date.lt a b || decide (a = b)

/-- A structurally valid calendar date. -/
def Date.Valid (d : Date) : Prop :=
  1 ≤ d.month ∧ d.month ≤ 12 ∧ 1 ≤ d.day ∧ d.day ≤ daysInMonth d.year d.month

/-- Successor day in the calendar (one `timedelta(days=1)` step forward). -/
def nextDay (d : Date) : Date :=
  if d.day < daysInMonth d.year d.month then ⟨d.year, d.month, d.day + 1⟩
  else if d.month < 12 then ⟨d.year, d.month + 1, 1⟩
  else ⟨d.year + 1, 1, 1⟩

/-- Predecessor day in the calendar (one `timedelta(days=1)` step back). -/
def prevDay (d : Date) : Date :=
  if 1 < d.day then ⟨d.year, d.month, d.day - 1⟩
  else if 1 < d.month then ⟨d.year, d.month - 1, daysInMonth d.year (d.month - 1)⟩
  else ⟨d.year - 1, 12, 31⟩

/-- Addition of a number of days to a date, i.e. `d + timedelta(days=n)`. -/
def addDays (d : Date) : ℕ → Date
  | 0 => d
  | n + 1 => addDays (nextDay d) n

/-- Subtraction of a number of days from a date, i.e. `d - timedelta(days=n)`. -/
def subDays (d : Date) : ℕ → Date
  | 0 => d
  | n + 1 => subDays (prevDay d) n

/-- Cumulative day count of the months before month `m` of year `y`. -/
def daysBeforeMonth (y : ℤ) (m : ℕ) : ℕ :=
  let base : ℕ :=
    match m with
    | 1 => 0 | 2 => 31 | 3 => 59 | 4 => 90 | 5 => 120 | 6 => 151
    | 7 => 181 | 8 => 212 | 9 => 243 | 10 => 273 | 11 => 304 | 12 => 334
    | _ => 0
  if 2 < m ∧ isLeap y then base + 1 else base

/-- Day number of a date, mirroring Python's `date.toordinal` (day 1 is
0001-01-01) for in-range dates. -/
def rataDie (d : Date) : ℤ :=
  let y := d.year - 1
  365 * y + y / 4 - y / 100 + y / 400 + daysBeforeMonth d.year d.month + d.day

/-- Signed day difference `(d2 - d1).days` between two dates. -/
def daysBetween (d1 d2 : Date) : ℤ :=
  rataDie d2 - rataDie d1

/-- Index of a date's month on the absolute month axis. -/
def monthIndex (d : Date) : ℤ :=
  12 * d.year + (d.month : ℤ) - 1

/-- Shift a date by `n` calendar months, clamping the day-of-month to the
length of the target month: this is exactly what applying
`dateutil.relativedelta(months=n)` to a `datetime.date` does. -/
def shiftMonths (d : Date) (n : ℤ) : Date :=
  let t : ℤ := monthIndex d + n
  let y : ℤ := t / 12
  let mo : ℕ := (t % 12).toNat + 1
  ⟨y, mo, min d.day (daysInMonth y mo)⟩

/-- `Bond.diff_month`: whole-month difference, ignoring the day-of-month. -/
def diff_month (date1 date2 : Date) : ℤ :=
  (date2.year - date1.year) * 12 + (date2.month : ℤ) - date1.month

/-- `Bond.last_day_in_month`: the source computes
`original_date.replace(day=28) + timedelta(days=4)` (always a date in the next
month) and then subtracts that date's day-of-month. -/
def last_day_in_month (original_date : Date) : Date :=
  let next_month := addDays ⟨original_date.year, original_date.month, 28⟩ 4
  subDays next_month next_month.day

/-- Number of coupon periods used by `couppcd`, `coupncd` and `dirty_price`:
`math.ceil(diff_month(settlement, maturity) / (12 / frequency))`, where
`12 / frequency` is Python float (true) division, modelled exactly in ℚ. -/
def nperiods (settlement maturity : Date) (frequency : ℕ) : ℤ :=
  ⌈(diff_month settlement maturity : ℚ) / (12 / (frequency : ℚ))⌉

/-- `Bond.couppcd`: previous coupon date.  The source shifts `maturity` back by
`relativedelta(months=12/frequency) * nperiod`; `relativedelta` only accepts an
integral number of months (it raises `ValueError` otherwise), so the shift is
meaningful exactly when `frequency` divides 12, and we write the month count as
natural division `12 / frequency`, which agrees with the source on that domain.
The `basis` parameter is accepted but never used, as in the source. -/
def couppcd (settlement maturity : Date) (frequency : ℕ) (_basis : ℤ) : Date :=
  let nperiod := nperiods settlement maturity frequency
  let pcd := shiftMonths maturity (-(((12 / frequency : ℕ) : ℤ) * nperiod))
  if maturity = last_day_in_month maturity then last_day_in_month pcd else pcd

/-- `Bond.coupncd`: next coupon date; identical to `couppcd` but shifting back
by `nperiod - 1` coupon intervals.  The `basis` parameter is unused. -/
def coupncd (settlement maturity : Date) (frequency : ℕ) (_basis : ℤ) : Date :=
  let nperiod := nperiods settlement maturity frequency
  let ncd := shiftMonths maturity (-(((12 / frequency : ℕ) : ℤ) * (nperiod - 1)))
  if maturity = last_day_in_month maturity then last_day_in_month ncd else ncd

/-- `Bond.day_count`: day count between two dates under the given basis
(0 = 30/360 US with its February and day-31 special cases, 4 = 30E/360 which
first decrements a day-31 date by one calendar day, and every other basis the
raw calendar-day difference). -/
def day_count (date1 date2 : Date) (basis : ℤ) : ℤ :=
  if basis = 0 then
    let D1 : ℤ := date1.day
    let D2 : ℤ := date2.day
    let D2 := if date1 = last_day_in_month date1 ∧ date2 = last_day_in_month date2 ∧
                  date1.month = 2 ∧ date2.month = 2 then 30 else D2
    let D1 := if date1 = last_day_in_month date1 ∧ date1.month = 2 then 30 else D1
    let D2 := if D2 = 31 ∧ (D1 = 30 ∨ D1 = 31) then 30 else D2
    let D1 := if D1 = 31 then 30 else D1
    360 * (date2.year - date1.year) + 30 * ((date2.month : ℤ) - date1.month) + (D2 - D1)
  else if basis = 4 then
    let d1 := if date1.day = 31 then prevDay date1 else date1
    let d2 := if date2.day = 31 then prevDay date2 else date2
    360 * (d2.year - d1.year) + 30 * ((d2.month : ℤ) - d1.month) + ((d2.day : ℤ) - d1.day)
  else daysBetween date1 date2

/-- Errors `Bond.accrint` can raise: the explicit date-order check, and the
`ZeroDivisionError` Python raises when a divisor is zero. -/
inductive AccrintError where
  | invalidDateOrder
  | zeroDivision
deriving DecidableEq

/-- `Bond.accrint`: accrued interest.  Raises if `issue > first_interest`;
basis 2 and 3 divide the raw day difference by 360 resp. 365; otherwise the
result is `(rate / frequency) * (accrued_days / total_days) * par`.  Python
evaluates `rate / frequency` before `accrued_days / total_days`, so a zero
`frequency` raises `ZeroDivisionError` before a zero `total_days` does. -/
def accrint (issue first_interest settlement : Date) (rate par : ℚ)
    (frequency : ℕ) (basis : ℤ) : Except AccrintError ℚ :=
  if Date.lt first_interest issue then .error .invalidDateOrder
  else if basis = 2 then .ok ((daysBetween issue settlement : ℚ) / 360 * rate)
  else if basis = 3 then .ok ((daysBetween issue settlement : ℚ) / 365 * rate)
  else
    let total_days := day_count issue first_interest basis
    let accrued_days := day_count issue settlement basis
    if frequency = 0 then .error .zeroDivision
    else if total_days = 0 then .error .zeroDivision
    else .ok (rate / (frequency : ℚ) * ((accrued_days : ℚ) / (total_days : ℚ)) * par)

/-- `Bond.dirty_price`: price the remaining coupon stream.  The numpy arrays
`periods`, `CF_perc`, `CF_regular`, `DF`, `CF_PV` are embedded as lists indexed
by `range nperiod`; the in-place `CF_perc[-1] += redemption` becomes an extra
`redemption` term at the last index `nperiod - 1`.  When `nperiod ≤ 0` the
source's `CF_perc[-1]` indexes an empty numpy array and raises `IndexError`,
modelled as `none`.  Discounting uses a real (fractional) exponent, as in
`(1 + yld_regular / frequency) ** periods`. -/
noncomputable def dirty_price (settlement maturity : Date) (rate yld redemption : ℝ)
    (frequency : ℕ) (basis : ℤ) : Option ℝ :=
  let pcd := couppcd settlement maturity frequency basis
  let ncd := coupncd settlement maturity frequency basis
  let first_period : ℝ := (daysBetween settlement ncd : ℝ) / (daysBetween pcd ncd : ℝ)
  let nperiod : ℤ := nperiods settlement maturity frequency
  if nperiod ≤ 0 then none
  else
    let np := nperiod.toNat
    let periods : List ℝ := (List.range np).map fun (i : ℕ) => first_period + (i : ℝ)
    let CF_perc : List ℝ :=
      (List.range np).map fun i => rate / (frequency : ℝ) + (if i = np - 1 then redemption else 0)
    let CF_regular : List ℝ := CF_perc.map fun x => x * 0.01
    let yld_regular : ℝ := yld * 0.01
    let DF : List ℝ := periods.map fun p => 1 / (1 + yld_regular / (frequency : ℝ)) ^ p
    let CF_PV : List ℝ := List.zipWith (fun a b => a * b) CF_regular DF
    some (CF_PV.sum * 100)

/-- Modelled from the claim's words: dirty price as the closed-form sum
`100 * Σ CF_i/100 * DF_i` with `DF_i = 1/(1 + yld/100/frequency)^(first_period + i)`,
`pcd`/`ncd` obtained from `couppcd`/`coupncd`,
`first_period = (ncd - settlement).days / (ncd - pcd).days` and
`nperiod = ceil(diff_month(settlement, maturity) / (12 / frequency))`;
`redemption` is added to the cash flow of the final period. -/
noncomputable def dirty_price_formula (settlement maturity : Date) (rate yld redemption : ℝ)
    (frequency : ℕ) (basis : ℤ) : ℝ :=
  let pcd := couppcd settlement maturity frequency basis
  let ncd := coupncd settlement maturity frequency basis
  let first_period : ℝ := (daysBetween settlement ncd : ℝ) / (daysBetween pcd ncd : ℝ)
  let np := (nperiods settlement maturity frequency).toNat
  100 * ∑ i in Finset.range np,
      ((rate / (frequency : ℝ) + (if i = np - 1 then redemption else 0)) / 100) *
        (1 / (1 + yld / 100 / (frequency : ℝ)) ^ (first_period + (i : ℝ)))

/-- Result of the external root finder (`scipy.optimize.root`): the solution
component `sol.x[0]` and the convergence flag `sol.success`. -/
structure RootResult where
  x : ℚ
  success : Bool
deriving DecidableEq

/-- Error raised by `Bond.yld` (the spec calls the failure `YieldSolveError`;
in the source it is the bare `assert yld >= 0 and yld <= 100`). -/
inductive YieldError where
  | yieldSolveError
deriving DecidableEq

/-- `Bond.yld` after the call to the root-finding collaborator: the source
takes `yld = sol.x[0]` and runs `assert yld >= 0 and yld <= 100`; it never
reads `sol.success`, so convergence is not checked. -/
def yld (sol : RootResult) : Except YieldError ℚ :=
  if 0 ≤ sol.x ∧ sol.x ≤ 100 then .ok sol.x else .error .yieldSolveError

/-- Memoization fields of a `Bond` instance: `_yld`, `_mac_duration`,
`_mod_duration`, `_DV01`, `_convexity`, each `None` until first computed. -/
structure BondCaches where
  yld : Option ℚ
  mac_duration : Option ℚ
  mod_duration : Option ℚ
  DV01 : Option ℚ
  convexity : Option ℚ
deriving DecidableEq

/-- Python truthiness of an optional float cache field: `if self._field:` is
taken when the field is neither `None` nor `0`. -/
def truthy (c : Option ℚ) : Bool :=
  match c with
  | none => false
  | some v => decide (v ≠ 0)

/-- Yield caching in `Bond.intermediate_values` / `Bond.convexity`:
`if self._yld is None: self._yld = self.yld(...)`.  The freshly solved value is
abstracted as `computed`; the returned `Bool` records whether the solver ran. -/
def yld_call (st : BondCaches) (computed : ℚ) : ℚ × BondCaches × Bool :=
  match st.yld with
  | some v => (v, st, false)
  | none => (computed, { st with yld := some computed }, true)

/-- `Bond.mac_duration`: `if self._mac_duration: return self._mac_duration`,
else compute (abstracted as `computed`), store and return.  The returned `Bool`
records whether the body recomputed the metric. -/
def mac_duration_call (st : BondCaches) (computed : ℚ) : ℚ × BondCaches × Bool :=
  if truthy st.mac_duration then (st.mac_duration.getD 0, st, false)
  else (computed, { st with mac_duration := some computed }, true)

/-- `Bond.mod_duration`: same truthiness guard on `self._mod_duration`. -/
def mod_duration_call (st : BondCaches) (computed : ℚ) : ℚ × BondCaches × Bool :=
  if truthy st.mod_duration then (st.mod_duration.getD 0, st, false)
  else (computed, { st with mod_duration := some computed }, true)

/-- `Bond.convexity`: same truthiness guard on `self._convexity`. -/
def convexity_call (st : BondCaches) (computed : ℚ) : ℚ × BondCaches × Bool :=
  if truthy st.convexity then (st.convexity.getD 0, st, false)
  else (computed, { st with convexity := some computed }, true)

/-- `Bond.DV01`: truthiness guard on `self._DV01`; on a miss it first ensures
`self._mod_duration` is set (an `is None` check there), then stores
`self._mod_duration * self._reg_dict["dirty_price"]`. -/
def DV01_call (st : BondCaches) (computed_mod dirty : ℚ) : ℚ × BondCaches × Bool :=
  if truthy st.DV01 then (st.DV01.getD 0, st, false)
  else
    let st1 := if st.mod_duration = none then { st with mod_duration := some computed_mod } else st
    let v := st1.mod_duration.getD 0 * dirty
    (v, { st1 with DV01 := some v }, true)

/-- `BondFuture.full_future_val`: invoice price `futures_pr_perc *
conversion_factor` plus accrued interest from the bond's coupon dates to the
repo end date (`settlement + timedelta(days=repo_period)`).  The source calls
`Bond.accrint(..., par=1, frequency=2, basis=1)` with the frequency and basis
hardcoded; the bond's own `frequency` and `basis` enter only through
`couppcd`/`coupncd`. -/
def full_future_val (settlement maturity : Date) (coupon_perc : ℚ) (frequency : ℕ)
    (basis : ℤ) (repo_period : ℕ) (futures_pr_perc conversion_factor : ℚ) :
    Except AccrintError ℚ :=
  let pcd := couppcd settlement maturity frequency basis
  let ncd := coupncd settlement maturity frequency basis
  let repo_end_date := addDays settlement repo_period
  let invoice_pr_perc := futures_pr_perc * conversion_factor
  (accrint pcd ncd repo_end_date coupon_perc 1 2 1).map fun a => invoice_pr_perc + a

/-- Modelled from the claim's words: `full_future_val` with the accrued
interest computed using the wrapped bond's own payment `frequency` and
day-count `basis` instead of the hardcoded `frequency=2, basis=1`. -/
def full_future_val_claim (settlement maturity : Date) (coupon_perc : ℚ) (frequency : ℕ)
    (basis : ℤ) (repo_period : ℕ) (futures_pr_perc conversion_factor : ℚ) :
    Except AccrintError ℚ :=
  let pcd := couppcd settlement maturity frequency basis
  let ncd := coupncd settlement maturity frequency basis
  let repo_end_date := addDays settlement repo_period
  let invoice_pr_perc := futures_pr_perc * conversion_factor
  (accrint pcd ncd repo_end_date coupon_perc 1 frequency basis).map fun a => invoice_pr_perc + a

deriving instance DecidableEq for Except

/-! Helper lemmas shared by the claim theorems. -/

set_option maxHeartbeats 1000000 in
/-- Reflexivity of `day_count`: every basis yields 0 on an identical date pair. -/
lemma day_count_self (d : Date) (basis : ℤ) : day_count d d basis = 0 := by
  rcases d with ⟨y, m, dd⟩
  simp only [day_count, daysBetween]
  split_ifs <;> first | omega | tauto

/-- Date comparison is asymmetric. -/
lemma date_lt_asymm {a b : Date} (h : Date.lt a b = true) : Date.lt b a = false := by
  rw [Bool.eq_false_iff]
  intro hc
  simp only [Date.lt, Bool.or_eq_true, Bool.and_eq_true, decide_eq_true_eq] at h hc
  omega

/-- Strict comparison implies non-strict comparison. -/
lemma date_le_of_lt {a b : Date} (h : Date.lt a b = true) : Date.le a b = true := by
  simp [Date.le, h]

/-- Dates with in-range months compare strictly whenever their month indices do
(the day fields are then irrelevant). -/
lemma date_lt_of_monthIndex_lt {a b : Date} (ha1 : 1 ≤ a.month) (ha2 : a.month ≤ 12)
    (hb1 : 1 ≤ b.month) (hb2 : b.month ≤ 12)
    (h : monthIndex a < monthIndex b) : Date.lt a b = true := by
  simp only [monthIndex] at h
  simp only [Date.lt, Bool.or_eq_true, Bool.and_eq_true, decide_eq_true_eq]
  omega

/-- A strict date comparison bounds the month indices (months in range). -/
lemma monthIndex_le_of_date_lt {a b : Date} (ha2 : a.month ≤ 12) (hb1 : 1 ≤ b.month)
    (h : Date.lt a b = true) : monthIndex a ≤ monthIndex b := by
  simp only [Date.lt, Bool.or_eq_true, Bool.and_eq_true, decide_eq_true_eq] at h
  simp only [monthIndex]
  omega

/-- The month difference is the difference of month indices. -/
lemma diff_month_eq (a b : Date) : diff_month a b = monthIndex b - monthIndex a := by
  simp only [diff_month, monthIndex]
  ring

/-- Shifting months adds exactly the shift to the month index. -/
lemma monthIndex_shiftMonths (d : Date) (n : ℤ) :
    monthIndex (shiftMonths d n) = monthIndex d + n := by
  simp only [shiftMonths, monthIndex]
  have h0 : 0 ≤ (12 * d.year + (d.month : ℤ) - 1 + n) % 12 :=
    Int.emod_nonneg _ (by norm_num)
  have h1 : (12 * d.year + (d.month : ℤ) - 1 + n) % 12 < 12 :=
    Int.emod_lt_of_pos _ (by norm_num)
  have h3 : 12 * ((12 * d.year + (d.month : ℤ) - 1 + n) / 12) +
      (12 * d.year + (d.month : ℤ) - 1 + n) % 12 = 12 * d.year + (d.month : ℤ) - 1 + n :=
    Int.ediv_add_emod _ 12
  omega

/-- The month of a shifted date is in range. -/
lemma shiftMonths_month_bounds (d : Date) (n : ℤ) :
    1 ≤ (shiftMonths d n).month ∧ (shiftMonths d n).month ≤ 12 := by
  simp only [shiftMonths]
  have h0 : 0 ≤ (monthIndex d + n) % 12 := Int.emod_nonneg _ (by norm_num)
  have h1 : (monthIndex d + n) % 12 < 12 := Int.emod_lt_of_pos _ (by norm_num)
  omega

/-- Unfolding step for day addition. -/
lemma addDays_step (d : Date) (n : ℕ) : addDays d (n + 1) = addDays (nextDay d) n := rfl

set_option maxHeartbeats 4000000 in
/-- The replace-day-28, add-4-days, subtract-day-of-month dance of
`last_day_in_month` indeed lands on the last day of the input's month. -/
lemma last_day_in_month_eq (y : ℤ) (m dd : ℕ) (h1 : 1 ≤ m) (h2 : m ≤ 12) :
    last_day_in_month ⟨y, m, dd⟩ = ⟨y, m, daysInMonth y m⟩ := by
  interval_cases m
  · simp only [last_day_in_month]
    rw [show addDays ⟨y, 1, 28⟩ 4 = ⟨y, 2, 1⟩ from rfl]
    rfl
  · cases hL : isLeap y
    · simp only [last_day_in_month]
      have hn : nextDay ⟨y, 2, 28⟩ = ⟨y, 3, 1⟩ := by simp [nextDay, daysInMonth, hL]
      rw [show (4:ℕ) = 3 + 1 from rfl, addDays_step, hn,
        show addDays ⟨y, 3, 1⟩ 3 = ⟨y, 3, 4⟩ from rfl]
      rfl
    · simp only [last_day_in_month]
      have hn1 : nextDay ⟨y, 2, 28⟩ = ⟨y, 2, 29⟩ := by simp [nextDay, daysInMonth, hL]
      have hn2 : nextDay ⟨y, 2, 29⟩ = ⟨y, 3, 1⟩ := by simp [nextDay, daysInMonth, hL]
      rw [show (4:ℕ) = 3 + 1 from rfl, addDays_step, hn1,
        show (3:ℕ) = 2 + 1 from rfl, addDays_step, hn2,
        show addDays ⟨y, 3, 1⟩ 2 = ⟨y, 3, 3⟩ from rfl]
      rfl
  · simp only [last_day_in_month]
    rw [show addDays ⟨y, 3, 28⟩ 4 = ⟨y, 4, 1⟩ from rfl]
    rfl
  · simp only [last_day_in_month]
    rw [show addDays ⟨y, 4, 28⟩ 4 = ⟨y, 5, 2⟩ from rfl]
    rfl
  · simp only [last_day_in_month]
    rw [show addDays ⟨y, 5, 28⟩ 4 = ⟨y, 6, 1⟩ from rfl]
    rfl
  · simp only [last_day_in_month]
    rw [show addDays ⟨y, 6, 28⟩ 4 = ⟨y, 7, 2⟩ from rfl]
    rfl
  · simp only [last_day_in_month]
    rw [show addDays ⟨y, 7, 28⟩ 4 = ⟨y, 8, 1⟩ from rfl]
    rfl
  · simp only [last_day_in_month]
    rw [show addDays ⟨y, 8, 28⟩ 4 = ⟨y, 9, 1⟩ from rfl]
    rfl
  · simp only [last_day_in_month]
    rw [show addDays ⟨y, 9, 28⟩ 4 = ⟨y, 10, 2⟩ from rfl]
    rfl
  · simp only [last_day_in_month]
    rw [show addDays ⟨y, 10, 28⟩ 4 = ⟨y, 11, 1⟩ from rfl]
    rfl
  · simp only [last_day_in_month]
    rw [show addDays ⟨y, 11, 28⟩ 4 = ⟨y, 12, 2⟩ from rfl]
    rfl
  · simp only [last_day_in_month]
    rw [show addDays ⟨y, 12, 28⟩ 4 = ⟨y + 1, 1, 1⟩ from rfl]
    rw [show subDays (⟨y + 1, 1, 1⟩ : Date) ((⟨y + 1, 1, 1⟩ : Date).day) = ⟨y + 1 - 1, 12, 31⟩ from rfl]
    simp only [Date.mk.injEq]
    exact ⟨by ring, trivial, rfl⟩

/-- Eta-expanded form of the previous lemma, for an arbitrary date value. -/
lemma last_day_in_month_spec (d : Date) (h1 : 1 ≤ d.month) (h2 : d.month ≤ 12) :
    last_day_in_month d = ⟨d.year, d.month, daysInMonth d.year d.month⟩ := by
  obtain ⟨y, m, dd⟩ := d
  exact last_day_in_month_eq y m dd h1 h2

/-- Lower and upper multiple-of-`k` bounds around a ceiling of a quotient. -/
lemma ceil_div_bounds (k : ℕ) (hk : 0 < k) (m : ℤ) :
    m ≤ (k : ℤ) * ⌈(m : ℚ) / (k : ℚ)⌉ ∧ (k : ℤ) * (⌈(m : ℚ) / (k : ℚ)⌉ - 1) < m := by
  have hkq : (0 : ℚ) < (k : ℚ) := by exact_mod_cast hk
  have hm : ((k : ℚ)) * ((m : ℚ) / (k : ℚ)) = m := by field_simp
  constructor
  · have h := Int.le_ceil ((m : ℚ) / (k : ℚ))
    have h2 : (m : ℚ) ≤ (((k : ℤ) * ⌈(m : ℚ) / (k : ℚ)⌉ : ℤ) : ℚ) := by
      push_cast
      nlinarith [h, hkq, hm]
    exact_mod_cast h2
  · have h := Int.ceil_lt_add_one ((m : ℚ) / (k : ℚ))
    have h2 : (((k : ℤ) * (⌈(m : ℚ) / (k : ℚ)⌉ - 1) : ℤ) : ℚ) < (m : ℚ) := by
      push_cast
      nlinarith [h, hkq, hm]
    exact_mod_cast h2

/-- On the meaningful domain (`frequency` divides 12), the float division
`12 / frequency` inside `nperiods` is the natural division. -/
lemma nperiods_eq (s M : Date) (f : ℕ) (hf : 0 < f) (hfd : f ∣ 12) :
    nperiods s M f = ⌈(diff_month s M : ℚ) / ((12 / f : ℕ) : ℚ)⌉ := by
  unfold nperiods
  rw [Nat.cast_div hfd (show ((f : ℚ)) ≠ 0 from by exact_mod_cast hf.ne')]
  norm_num

/-- Ceiling of an integer-over-natural quotient as integer division (used to
evaluate `nperiods` on concrete dates, since rational arithmetic does not
reduce definitionally). -/
lemma ceil_intCast_div_natCast (n : ℤ) (d : ℕ) :
    ⌈(n : ℚ) / (d : ℚ)⌉ = -((-n) / (d : ℤ)) := by
  have h0 : ⌊-((n : ℚ) / (d : ℚ))⌋ = -⌈(n : ℚ) / (d : ℚ)⌉ := Int.floor_neg
  have h1 : -((n : ℚ) / (d : ℚ)) = ((-n : ℤ) : ℚ) / (d : ℚ) := by push_cast; ring
  rw [h1, Rat.floor_intCast_div_natCast (-n) d] at h0
  omega

/-- Integer-arithmetic form of `nperiods` on the meaningful domain. -/
lemma nperiods_int (s M : Date) (f : ℕ) (hf : 0 < f) (hfd : f ∣ 12) :
    nperiods s M f = -(-(diff_month s M) / ((12 / f : ℕ) : ℤ)) := by
  rw [nperiods_eq s M f hf hfd, ceil_intCast_div_natCast]

/-- The generic (non-2, non-3 basis) success case of `accrint`. -/
lemma accrint_ok_general (i fi s : Date) (rate par : ℚ) (f : ℕ) (b : ℤ)
    (hord : Date.lt fi i = false) (hb2 : b ≠ 2) (hb3 : b ≠ 3) (hf : f ≠ 0)
    (htot : day_count i fi b ≠ 0) :
    accrint i fi s rate par f b =
      .ok (rate / (f : ℚ) * ((day_count i s b : ℚ) / (day_count i fi b : ℚ)) * par) := by
  simp [accrint, hord, hb2, hb3, hf, htot]

/-- Month index and month-range facts for `couppcd`. -/
lemma couppcd_monthIndex (s M : Date) (f : ℕ) (b : ℤ) :
    monthIndex (couppcd s M f b) = monthIndex M - ((12 / f : ℕ) : ℤ) * nperiods s M f ∧
    1 ≤ (couppcd s M f b).month ∧ (couppcd s M f b).month ≤ 12 := by
  have hb := shiftMonths_month_bounds M (-(((12 / f : ℕ) : ℤ) * nperiods s M f))
  have hidx := monthIndex_shiftMonths M (-(((12 / f : ℕ) : ℤ) * nperiods s M f))
  simp only [couppcd]
  split_ifs with hsnap
  · rw [last_day_in_month_spec _ hb.1 hb.2]
    refine ⟨?_, hb.1, hb.2⟩
    simp only [monthIndex] at hidx ⊢
    linarith
  · exact ⟨by linarith, hb.1, hb.2⟩

/-- Month index and month-range facts for `coupncd`. -/
lemma coupncd_monthIndex (s M : Date) (f : ℕ) (b : ℤ) :
    monthIndex (coupncd s M f b) = monthIndex M - ((12 / f : ℕ) : ℤ) * (nperiods s M f - 1) ∧
    1 ≤ (coupncd s M f b).month ∧ (coupncd s M f b).month ≤ 12 := by
  have hb := shiftMonths_month_bounds M (-(((12 / f : ℕ) : ℤ) * (nperiods s M f - 1)))
  have hidx := monthIndex_shiftMonths M (-(((12 / f : ℕ) : ℤ) * (nperiods s M f - 1)))
  simp only [coupncd]
  split_ifs with hsnap
  · rw [last_day_in_month_spec _ hb.1 hb.2]
    refine ⟨?_, hb.1, hb.2⟩
    simp only [monthIndex] at hidx ⊢
    linarith
  · exact ⟨by linarith, hb.1, hb.2⟩

/-- Pointwise product of two maps over the same list. -/
lemma zipWith_map_same {α β γ δ : Type} (f : β → γ → δ) (g : α → β) (h : α → γ) :
    ∀ l : List α, List.zipWith f (l.map g) (l.map h) = l.map fun x => f (g x) (h x)
  | [] => rfl
  | x :: xs => by
      simp only [List.map_cons, List.zipWith_cons_cons]
      rw [zipWith_map_same f g h xs]

/-- Sum of a mapped range as a `Finset` sum. -/
lemma sum_map_range (f : ℕ → ℝ) (n : ℕ) :
    ((List.range n).map f).sum = ∑ i in Finset.range n, f i := by
  induction n with
  | zero => simp
  | succ n ih =>
      rw [List.range_succ, List.map_append, List.sum_append, Finset.sum_range_succ, ih]
      simp

/-! The claim theorems. -/

/-- C8: for every date `d` and every basis (in particular 0, 1, 2, 3 and 4,
including month-end dates, February month-ends and day-31 dates),
`day_count d d basis = 0`. -/
theorem day_count_refl (d : Date) (basis : ℤ) : day_count d d basis = 0 :=
  day_count_self d basis

/-- C9: the `basis` parameter has no influence on `couppcd` or `coupncd`: any
two basis values give identical previous and next coupon dates. -/
theorem coupdates_basis_independent (settlement maturity : Date) (frequency : ℕ) (b1 b2 : ℤ) :
    couppcd settlement maturity frequency b1 = couppcd settlement maturity frequency b2 ∧
    coupncd settlement maturity frequency b1 = coupncd settlement maturity frequency b2 :=
  ⟨rfl, rfl⟩

set_option maxRecDepth 4000 in
set_option maxHeartbeats 1000000 in
/-- C3 counterexample: for settlement 2020-01-01, maturity 2020-07-15,
frequency 2 (a valid input with settlement < maturity), `couppcd` returns
2020-01-15, which is strictly after the settlement date, so
`couppcd ≤ settlement` fails as stated. -/
theorem couppcd_after_settlement_cex :
    Date.lt ⟨2020, 1, 1⟩ ⟨2020, 7, 15⟩ = true ∧
    Date.le (couppcd ⟨2020, 1, 1⟩ ⟨2020, 7, 15⟩ 2 1) ⟨2020, 1, 1⟩ = false := by
  have hnp : nperiods ⟨2020, 1, 1⟩ ⟨2020, 7, 15⟩ 2 = 1 := by
    rw [nperiods_int _ _ _ (by norm_num) (by norm_num)]
    decide
  refine ⟨by decide, ?_⟩
  simp only [couppcd, hnp]
  decide

/-- C3 (amended): for valid months, frequency dividing 12 and
settlement < maturity, `settlement < coupncd` always holds, and
`couppcd ≤ settlement` holds whenever the coupon interval `12/frequency` does
not divide the whole-month difference `diff_month settlement maturity` (when it
divides, `couppcd` lands in the settlement's own month and can fall after the
settlement day, as the counterexample shows). -/
theorem coupon_dates_bracket_settlement (s M : Date) (f : ℕ) (b : ℤ)
    (hs1 : 1 ≤ s.month) (hs2 : s.month ≤ 12) (hM1 : 1 ≤ M.month) (hM2 : M.month ≤ 12)
    (hf : 0 < f) (hfd : f ∣ 12) (hsM : Date.lt s M = true) :
    (¬ ((12 / f : ℕ) : ℤ) ∣ diff_month s M → Date.le (couppcd s M f b) s = true) ∧
    Date.lt s (coupncd s M f b) = true := by
  have hk : 0 < 12 / f := (Nat.one_le_div_iff hf).mpr (Nat.le_of_dvd (by norm_num) hfd)
  have hnper : nperiods s M f = ⌈(diff_month s M : ℚ) / ((12 / f : ℕ) : ℚ)⌉ :=
    nperiods_eq s M f hf hfd
  have hbounds := ceil_div_bounds (12 / f) hk (diff_month s M)
  rw [← hnper] at hbounds
  have hdm : diff_month s M = monthIndex M - monthIndex s := diff_month_eq s M
  constructor
  · intro hnd
    obtain ⟨hc1, hc2, hc3⟩ := couppcd_monthIndex s M f b
    have hne : ((12 / f : ℕ) : ℤ) * nperiods s M f ≠ diff_month s M := fun he =>
      hnd ⟨nperiods s M f, he.symm⟩
    have hgt : diff_month s M < ((12 / f : ℕ) : ℤ) * nperiods s M f :=
      lt_of_le_of_ne hbounds.1 (Ne.symm hne)
    have hlt : monthIndex (couppcd s M f b) < monthIndex s := by linarith
    exact date_le_of_lt (date_lt_of_monthIndex_lt hc2 hc3 hs1 hs2 hlt)
  · obtain ⟨hc1, hc2, hc3⟩ := coupncd_monthIndex s M f b
    have hlt : monthIndex s < monthIndex (coupncd s M f b) := by linarith [hbounds.2]
    exact date_lt_of_monthIndex_lt hs1 hs2 hc2 hc3 hlt

/-- C3 witness: the amended bracket at settlement 2020-07-15,
maturity 2030-05-15, frequency 2, basis 1. -/
theorem coupon_dates_bracket_settlement_witness :
    Date.lt ⟨2020, 7, 15⟩ ⟨2030, 5, 15⟩ = true ∧
    Date.le (couppcd ⟨2020, 7, 15⟩ ⟨2030, 5, 15⟩ 2 1) ⟨2020, 7, 15⟩ = true ∧
    Date.lt ⟨2020, 7, 15⟩ (coupncd ⟨2020, 7, 15⟩ ⟨2030, 5, 15⟩ 2 1) = true := by
  have h := coupon_dates_bracket_settlement ⟨2020, 7, 15⟩ ⟨2030, 5, 15⟩ 2 1
    (by decide) (by decide) (by decide) (by decide) (by decide) (by decide) (by decide)
  exact ⟨by decide, h.1 (by decide), h.2⟩

/-- C5 counterexample: issue 2020-01-30 is strictly before first-interest
2020-01-31, yet under basis 0 the 30/360 day count between them is 0 and
`accrint` raises `ZeroDivisionError` instead of returning the claimed
formula value. -/
theorem accrint_zero_total_cex :
    Date.le ⟨2020, 1, 30⟩ ⟨2020, 1, 31⟩ = true ∧
    accrint ⟨2020, 1, 30⟩ ⟨2020, 1, 31⟩ ⟨2020, 1, 30⟩ 6 1 2 0 = .error .zeroDivision := by
  decide

/-- C5 (amended): `accrint` raises `InvalidDateOrder` exactly when
issue > first_interest; otherwise basis 2 and 3 return the raw-day-count
formulas, and any other basis returns
`(rate/frequency) * (accrued/total) * par` provided `frequency > 0` and the
total day count is nonzero (otherwise Python raises `ZeroDivisionError`). -/
theorem accrint_cases (i fi s : Date) (rate par : ℚ) (f : ℕ) (b : ℤ) :
    (accrint i fi s rate par f b = .error .invalidDateOrder ↔ Date.lt fi i = true) ∧
    (Date.lt fi i = false →
      (b = 2 → accrint i fi s rate par f b = .ok ((daysBetween i s : ℚ) / 360 * rate)) ∧
      (b = 3 → accrint i fi s rate par f b = .ok ((daysBetween i s : ℚ) / 365 * rate)) ∧
      (b ≠ 2 → b ≠ 3 → 0 < f → day_count i fi b ≠ 0 →
        accrint i fi s rate par f b =
          .ok (rate / (f : ℚ) * ((day_count i s b : ℚ) / (day_count i fi b : ℚ)) * par))) := by
  constructor
  · simp only [accrint]
    split_ifs <;> simp_all
  · intro hord
    refine ⟨?_, ?_, ?_⟩
    · intro hb
      subst hb
      simp [accrint, hord]
    · intro hb
      subst hb
      simp [accrint, hord]
    · intro hb2 hb3 hf htot
      exact accrint_ok_general i fi s rate par f b hord hb2 hb3 hf.ne' htot

/-- C5 witness: the basis-1 branch at the repo fixture dates (previous coupon
2020-05-15, next coupon 2020-11-15, settlement 2020-07-15). -/
theorem accrint_cases_witness :
    Date.lt ⟨2020, 11, 15⟩ ⟨2020, 5, 15⟩ = false ∧
    accrint ⟨2020, 5, 15⟩ ⟨2020, 11, 15⟩ ⟨2020, 7, 15⟩ (5/8) 1 2 1 =
      .ok ((5/8 : ℚ) / ((2 : ℕ) : ℚ) * ((day_count ⟨2020, 5, 15⟩ ⟨2020, 7, 15⟩ 1 : ℚ) /
        (day_count ⟨2020, 5, 15⟩ ⟨2020, 11, 15⟩ 1 : ℚ)) * 1) :=
  ⟨by decide,
    (((accrint_cases ⟨2020, 5, 15⟩ ⟨2020, 11, 15⟩ ⟨2020, 7, 15⟩ (5/8) 1 2 1).2
      (by decide)).2.2) (by decide) (by decide) (by decide) (by decide)⟩

/-- C10 counterexample: with issue 2020-01-30 strictly before first-interest
2020-01-31 and settlement equal to the issue date, basis 4 gives a zero total
day count, so `accrint` raises `ZeroDivisionError` rather than returning 0. -/
theorem accrint_at_issue_cex :
    Date.lt ⟨2020, 1, 30⟩ ⟨2020, 1, 31⟩ = true ∧
    accrint ⟨2020, 1, 30⟩ ⟨2020, 1, 31⟩ ⟨2020, 1, 30⟩ 6 1 2 4 ≠ .ok 0 := by
  decide

/-- C10 (amended): for every basis, rate and par, positive frequency and
issue strictly before first interest, accrued interest at settlement equal to
the issue date is exactly 0, provided the total day count is nonzero for the
non-actual bases (it can be 0 under bases 0 and 4, in which case the code
raises `ZeroDivisionError` instead). -/
theorem accrint_at_issue_zero (i fi : Date) (rate par : ℚ) (f : ℕ) (b : ℤ)
    (hf : 0 < f) (hifi : Date.lt i fi = true)
    (htot : b ≠ 2 → b ≠ 3 → day_count i fi b ≠ 0) :
    accrint i fi i rate par f b = .ok 0 := by
  have hord : Date.lt fi i = false := date_lt_asymm hifi
  by_cases hb2 : b = 2
  · subst hb2
    simp [accrint, hord, daysBetween]
  · by_cases hb3 : b = 3
    · subst hb3
      simp [accrint, hord, daysBetween]
    · simp [accrint, hord, hb2, hb3, hf.ne', htot hb2 hb3, day_count_self]

/-- C10 witness: zero accrued interest at the previous coupon date itself, at
the repo fixture dates under basis 1. -/
theorem accrint_at_issue_zero_witness :
    0 < (2 : ℕ) ∧ Date.lt ⟨2020, 5, 15⟩ ⟨2020, 11, 15⟩ = true ∧
    accrint ⟨2020, 5, 15⟩ ⟨2020, 11, 15⟩ ⟨2020, 5, 15⟩ 3 100 2 1 = .ok 0 :=
  ⟨by decide, by decide,
    accrint_at_issue_zero ⟨2020, 5, 15⟩ ⟨2020, 11, 15⟩ 3 100 2 1 (by decide) (by decide)
      (fun _ _ => by decide)⟩

/-- C4 counterexample: the source never reads the solver's convergence flag;
a non-converged result with in-range yield 5 is returned without error, while
the claim says that case must fail. -/
theorem yld_ignores_convergence_cex :
    ¬(((yld ⟨5, false⟩).isOk = false) ↔
      ((⟨5, false⟩ : RootResult).success = false ∨
        ¬(0 ≤ (⟨5, false⟩ : RootResult).x ∧ (⟨5, false⟩ : RootResult).x ≤ 100))) := by
  decide

/-- C4 (amended): `yld` fails exactly when the solver's returned yield lies
outside [0, 100] percent (convergence is never checked), and a returned yield
is always inside [0, 100]. -/
theorem yld_error_iff_out_of_range (sol : RootResult) :
    ((yld sol).isOk = false ↔ ¬(0 ≤ sol.x ∧ sol.x ≤ 100)) ∧
    (∀ y, yld sol = .ok y → 0 ≤ y ∧ y ≤ 100) := by
  constructor
  · unfold yld
    split_ifs with h <;> simp [h, Except.isOk, Except.toBool]
  · intro y hy
    unfold yld at hy
    split_ifs at hy with h
    obtain rfl : sol.x = y := by injection hy
    exact h

/-- C4 witness: an in-range converged solution is returned and in range. -/
theorem yld_error_iff_out_of_range_witness :
    yld ⟨50, true⟩ = .ok 50 ∧ (0 ≤ (50 : ℚ) ∧ (50 : ℚ) ≤ 100) :=
  ⟨by decide, (yld_error_iff_out_of_range ⟨50, true⟩).2 50 (by decide)⟩

/-- C6 counterexample: a stored Macaulay duration of 0 fails the truthiness
guard, so the call recomputes (returning the fresh value 7 and mutating the
cache) instead of returning the stored 0 unchanged. -/
theorem cache_zero_recompute_cex :
    mac_duration_call ⟨none, some 0, none, none, none⟩ 7 ≠
      ((0 : ℚ), (⟨none, some 0, none, none, none⟩ : BondCaches), false) := by
  decide

/-- C6 (amended): a cached yield is always returned unchanged without
recomputation; the four truthiness-guarded metrics (Macaulay duration,
modified duration, DV01, convexity) behave that way exactly for nonzero
stored values. -/
theorem cached_metrics_stable (st : BondCaches) (v computed dirty : ℚ) :
    (st.yld = some v → yld_call st computed = (v, st, false)) ∧
    (st.mac_duration = some v → v ≠ 0 → mac_duration_call st computed = (v, st, false)) ∧
    (st.mod_duration = some v → v ≠ 0 → mod_duration_call st computed = (v, st, false)) ∧
    (st.DV01 = some v → v ≠ 0 → DV01_call st computed dirty = (v, st, false)) ∧
    (st.convexity = some v → v ≠ 0 → convexity_call st computed = (v, st, false)) := by
  refine ⟨fun h => ?_, fun h hv => ?_, fun h hv => ?_, fun h hv => ?_, fun h hv => ?_⟩
  · simp [yld_call, h]
  · simp [mac_duration_call, truthy, h, hv]
  · simp [mod_duration_call, truthy, h, hv]
  · simp [DV01_call, truthy, h, hv]
  · simp [convexity_call, truthy, h, hv]

/-- C6 witness: all five metrics at a fully populated nonzero cache. -/
theorem cached_metrics_stable_witness :
    yld_call ⟨some 5, some 5, some 5, some 5, some 5⟩ 9 =
      (5, ⟨some 5, some 5, some 5, some 5, some 5⟩, false) ∧
    mac_duration_call ⟨some 5, some 5, some 5, some 5, some 5⟩ 9 =
      (5, ⟨some 5, some 5, some 5, some 5, some 5⟩, false) ∧
    mod_duration_call ⟨some 5, some 5, some 5, some 5, some 5⟩ 9 =
      (5, ⟨some 5, some 5, some 5, some 5, some 5⟩, false) ∧
    DV01_call ⟨some 5, some 5, some 5, some 5, some 5⟩ 9 2 =
      (5, ⟨some 5, some 5, some 5, some 5, some 5⟩, false) ∧
    convexity_call ⟨some 5, some 5, some 5, some 5, some 5⟩ 9 =
      (5, ⟨some 5, some 5, some 5, some 5, some 5⟩, false) := by
  have h := cached_metrics_stable ⟨some 5, some 5, some 5, some 5, some 5⟩ 5 9 2
  exact ⟨h.1 rfl, h.2.1 rfl (by norm_num), h.2.2.1 rfl (by norm_num),
    h.2.2.2.1 rfl (by norm_num), h.2.2.2.2 rfl (by norm_num)⟩

set_option maxRecDepth 4000 in
set_option maxHeartbeats 1000000 in
/-- C7 counterexample: for a bond with frequency 4 and basis 0, the accrued
interest inside `full_future_val` (hardcoded frequency 2, basis 1) differs
from the claim's value computed with the bond's own frequency and basis. -/
theorem full_future_val_hardcoded_cex :
    full_future_val ⟨2020, 7, 15⟩ ⟨2030, 5, 15⟩ 6 4 0 32 100 1 ≠
      full_future_val_claim ⟨2020, 7, 15⟩ ⟨2030, 5, 15⟩ 6 4 0 32 100 1 := by
  have hnp : nperiods ⟨2020, 7, 15⟩ ⟨2030, 5, 15⟩ 4 = 40 := by
    rw [nperiods_int _ _ _ (by norm_num) (by norm_num)]
    decide
  have hpcd : couppcd ⟨2020, 7, 15⟩ ⟨2030, 5, 15⟩ 4 0 = ⟨2020, 5, 15⟩ := by
    simp only [couppcd, hnp]
    decide
  have hncd : coupncd ⟨2020, 7, 15⟩ ⟨2030, 5, 15⟩ 4 0 = ⟨2020, 8, 15⟩ := by
    simp only [coupncd, hnp]
    decide
  have ha1 : accrint ⟨2020, 5, 15⟩ ⟨2020, 8, 15⟩ (addDays ⟨2020, 7, 15⟩ 32) 6 1 2 1 =
      .ok ((6 : ℚ) / ((2 : ℕ) : ℚ) * ((93 : ℚ) / (92 : ℚ)) * 1) := by
    rw [accrint_ok_general ⟨2020, 5, 15⟩ ⟨2020, 8, 15⟩ (addDays ⟨2020, 7, 15⟩ 32) 6 1 2 1
      (by decide) (by decide) (by decide) (by decide) (by decide)]
    rw [show day_count ⟨2020, 5, 15⟩ (addDays ⟨2020, 7, 15⟩ 32) 1 = 93 from by decide,
      show day_count ⟨2020, 5, 15⟩ ⟨2020, 8, 15⟩ 1 = 92 from by decide]
    norm_num
  have ha2 : accrint ⟨2020, 5, 15⟩ ⟨2020, 8, 15⟩ (addDays ⟨2020, 7, 15⟩ 32) 6 1 4 0 =
      .ok ((6 : ℚ) / ((4 : ℕ) : ℚ) * ((91 : ℚ) / (90 : ℚ)) * 1) := by
    rw [accrint_ok_general ⟨2020, 5, 15⟩ ⟨2020, 8, 15⟩ (addDays ⟨2020, 7, 15⟩ 32) 6 1 4 0
      (by decide) (by decide) (by decide) (by decide) (by decide)]
    rw [show day_count ⟨2020, 5, 15⟩ (addDays ⟨2020, 7, 15⟩ 32) 0 = 91 from by decide,
      show day_count ⟨2020, 5, 15⟩ ⟨2020, 8, 15⟩ 0 = 90 from by decide]
    norm_num
  have h1 : full_future_val ⟨2020, 7, 15⟩ ⟨2030, 5, 15⟩ 6 4 0 32 100 1 =
      .ok (100 * 1 + (6 : ℚ) / ((2 : ℕ) : ℚ) * ((93 : ℚ) / (92 : ℚ)) * 1) := by
    simp only [full_future_val, hpcd, hncd, ha1, Except.map]
  have h2 : full_future_val_claim ⟨2020, 7, 15⟩ ⟨2030, 5, 15⟩ 6 4 0 32 100 1 =
      .ok (100 * 1 + (6 : ℚ) / ((4 : ℕ) : ℚ) * ((91 : ℚ) / (90 : ℚ)) * 1) := by
    simp only [full_future_val_claim, hpcd, hncd, ha2, Except.map]
  rw [h1, h2]
  intro hc
  rw [Except.ok.injEq] at hc
  norm_num at hc

/-- C7 (amended): `full_future_val` is the futures quote times the conversion
factor plus the accrued interest from `couppcd` to the repo end date computed
with hardcoded frequency 2 and basis 1, regardless of the bond's own settings. -/
theorem full_future_val_eq (settlement maturity : Date) (coupon_perc : ℚ) (frequency : ℕ)
    (basis : ℤ) (repo_period : ℕ) (futures_pr_perc conversion_factor a : ℚ)
    (h : accrint (couppcd settlement maturity frequency basis)
        (coupncd settlement maturity frequency basis)
        (addDays settlement repo_period) coupon_perc 1 2 1 = .ok a) :
    full_future_val settlement maturity coupon_perc frequency basis repo_period
        futures_pr_perc conversion_factor = .ok (futures_pr_perc * conversion_factor + a) := by
  simp only [full_future_val, h, Except.map]

set_option maxRecDepth 4000 in
set_option maxHeartbeats 1000000 in
/-- C7 witness: the amended formula at the repo fixture bond. -/
theorem full_future_val_eq_witness :
    full_future_val ⟨2020, 7, 15⟩ ⟨2030, 5, 15⟩ (5/8) 2 1 32 100 1 =
      .ok (100 * 1 + (5/8 : ℚ) / ((2 : ℕ) : ℚ) * ((93 : ℚ) / (184 : ℚ)) * 1) := by
  have hnp : nperiods ⟨2020, 7, 15⟩ ⟨2030, 5, 15⟩ 2 = 20 := by
    rw [nperiods_int _ _ _ (by norm_num) (by norm_num)]
    decide
  have hpcd : couppcd ⟨2020, 7, 15⟩ ⟨2030, 5, 15⟩ 2 1 = ⟨2020, 5, 15⟩ := by
    simp only [couppcd, hnp]
    decide
  have hncd : coupncd ⟨2020, 7, 15⟩ ⟨2030, 5, 15⟩ 2 1 = ⟨2020, 11, 15⟩ := by
    simp only [coupncd, hnp]
    decide
  have ha : accrint (couppcd ⟨2020, 7, 15⟩ ⟨2030, 5, 15⟩ 2 1)
      (coupncd ⟨2020, 7, 15⟩ ⟨2030, 5, 15⟩ 2 1) (addDays ⟨2020, 7, 15⟩ 32) (5/8) 1 2 1 =
      .ok ((5/8 : ℚ) / ((2 : ℕ) : ℚ) * ((93 : ℚ) / (184 : ℚ)) * 1) := by
    rw [hpcd, hncd]
    rw [accrint_ok_general ⟨2020, 5, 15⟩ ⟨2020, 11, 15⟩ (addDays ⟨2020, 7, 15⟩ 32) (5/8) 1 2 1
      (by decide) (by decide) (by decide) (by decide) (by decide)]
    rw [show day_count ⟨2020, 5, 15⟩ (addDays ⟨2020, 7, 15⟩ 32) 1 = 93 from by decide,
      show day_count ⟨2020, 5, 15⟩ ⟨2020, 11, 15⟩ 1 = 184 from by decide]
    norm_num
  exact full_future_val_eq ⟨2020, 7, 15⟩ ⟨2030, 5, 15⟩ (5/8) 2 1 32 100 1 _ ha

/-- C1 counterexample: with settlement 2020-05-01 and maturity 2020-05-15 in
the same month, `nperiod = 0` and the source raises `IndexError` on
`CF_perc[-1]` instead of returning the claimed discounted sum. -/
theorem dirty_price_empty_schedule_cex :
    dirty_price ⟨2020, 5, 1⟩ ⟨2020, 5, 15⟩ 5 3 100 2 1 ≠
      some (dirty_price_formula ⟨2020, 5, 1⟩ ⟨2020, 5, 15⟩ 5 3 100 2 1) := by
  have hnp : nperiods ⟨2020, 5, 1⟩ ⟨2020, 5, 15⟩ 2 = 0 := by
    rw [nperiods_int _ _ _ (by norm_num) (by norm_num)]
    decide
  have h : dirty_price ⟨2020, 5, 1⟩ ⟨2020, 5, 15⟩ 5 3 100 2 1 = none := by
    simp only [dirty_price, hnp]
    norm_num
  rw [h]
  exact (Option.some_ne_none _).symm

/-- C1 (amended): whenever the frequency divides 12 and settlement and
maturity are at least one whole month apart (so `nperiod ≥ 1` and the
cash-flow array is nonempty), `dirty_price` returns exactly
`100 * Σ CF_i/100 * DF_i` with `DF_i = 1/(1 + yld/100/frequency)^(first_period + i)`,
coupon dates from `couppcd`/`coupncd`, fractional first period
`(ncd - settlement).days / (ncd - pcd).days`, per-period cash flow
`rate/frequency` and `redemption` added to the final period. -/
theorem dirty_price_eq_formula (settlement maturity : Date) (rate yld redemption : ℝ)
    (frequency : ℕ) (basis : ℤ) (hf : 0 < frequency) (hfd : frequency ∣ 12)
    (hm : 0 < diff_month settlement maturity) :
    dirty_price settlement maturity rate yld redemption frequency basis =
      some (dirty_price_formula settlement maturity rate yld redemption frequency basis) := by
  have hpos : 0 < nperiods settlement maturity frequency := by
    unfold nperiods
    refine Int.ceil_pos.mpr (div_pos ?_ (div_pos ?_ ?_))
    · exact_mod_cast hm
    · norm_num
    · exact_mod_cast hf
  simp only [dirty_price, dirty_price_formula]
  rw [if_neg (by omega)]
  congr 1
  rw [List.map_map, List.map_map, zipWith_map_same, sum_map_range, mul_comm]
  congr 1
  refine Finset.sum_congr rfl fun i _ => ?_
  simp only [Function.comp]
  have h1 : (0.01 : ℝ) = 1 / 100 := by norm_num
  rw [h1]
  have h2 : yld * (1 / 100) = yld / 100 := by ring
  rw [h2]
  congr 1
  ring

/-- C1 witness: the amended equality at the fixture bond (settlement
2020-07-15, maturity 2030-05-15, coupon 0.625, frequency 2, basis 1). -/
theorem dirty_price_eq_formula_witness :
    0 < (2 : ℕ) ∧ (2 : ℕ) ∣ 12 ∧ 0 < diff_month ⟨2020, 7, 15⟩ ⟨2030, 5, 15⟩ ∧
    dirty_price ⟨2020, 7, 15⟩ ⟨2030, 5, 15⟩ 0.625 3 100 2 1 =
      some (dirty_price_formula ⟨2020, 7, 15⟩ ⟨2030, 5, 15⟩ 0.625 3 100 2 1) :=
  ⟨by decide, by decide, by decide,
    dirty_price_eq_formula ⟨2020, 7, 15⟩ ⟨2030, 5, 15⟩ 0.625 3 100 2 1
      (by decide) (by decide) (by decide)⟩

end Fincomepy
